import Mathlib

/-!
Verification development for the Ariadne research-orchestration core:
the workflow engine (`backend/services/workflow_service.py`), the memory
graph (`backend/services/memory_service.py`) and the capability registry
(`backend/core/registry.py`), shallowly embedded as executable Lean
definitions.  Conventions used throughout:

* Python strings are Lean `String`s; `str.lower()`, `str.split()`,
  substring membership (`in`) and slicing are re-implemented below over
  `List Char` so that every operation is kernel-computable.
* Python dicts are insertion-ordered association lists; assignment is
  update-in-place when the key exists, append otherwise.
* The generated node / plan ids (`context_<timestamp>`, `plan_<uuid>`)
  are modelled by counters: `store_context` ids are the bare counter
  value, plan ids are rendered as `"plan_" ++ toString counter`.
* `datetime`-valued fields (`created_at`, `updated_at`, step result
  timestamps) are not modelled; no verified claim observes them.
* A capability ("tool") is a function that may raise, modelled with
  `Except String`; the `try`/`except` blocks of the workflow service are
  translated as matches on those `Except` values.
-/

set_option maxRecDepth 40000

namespace Ariadne

/-! ### String primitives (Python `in`, `str.split()`, `str.lower()`, slicing) -/

/-- Does the second character list start with the first one? -/
def prefixMatch : List Char → List Char → Bool
  | [], _ => true
  | _ :: _, [] => false
  | a :: as, b :: bs => a == b && prefixMatch as bs

/-- Substring search over character lists (naive scan). -/
def charsContain (needle : List Char) : List Char → Bool
  | [] => needle.isEmpty
  | c :: cs => prefixMatch needle (c :: cs) || charsContain needle cs

/-- Python `needle in hay` substring containment. -/
def strContains (hay needle : String) : Bool :=
  charsContain needle.data hay.data

def isSpaceChar (c : Char) : Bool :=
  c == ' ' || c == '\t' || c == '\n' || c == '\r'

/-- Worker for `pySplit`: `cur` is the (reversed) pending token. -/
def splitWsAux : List Char → List Char → List String
  | cur, [] => if cur.isEmpty then [] else [String.mk cur.reverse]
  | cur, c :: cs =>
    if isSpaceChar c then
      if cur.isEmpty then splitWsAux [] cs
      else String.mk cur.reverse :: splitWsAux [] cs
    else splitWsAux (c :: cur) cs

/-- Python `str.split()` with no argument: split on whitespace runs,
dropping empty pieces. -/
def pySplit (s : String) : List String := splitWsAux [] s.data

/-- Python `str.lower()` on the ASCII range exercised by the sources. -/
def lowerChar (c : Char) : Char :=
  if 'A' ≤ c ∧ c ≤ 'Z' then Char.ofNat (c.toNat + 32) else c

def lowerStr (s : String) : String := String.mk (s.data.map lowerChar)

/-- Python slice `s[:n]` (by code point). -/
def strTake (s : String) (n : Nat) : String := String.mk (s.data.take n)

/-! ### Association-list dictionaries (Python `dict`) -/

/-- First-match association lookup (Python dict access; keys are unique in
every state reachable through the service API). -/
def dictGet {β : Type} (k : String) : List (String × β) → Option β
  | [] => none
  | (k', v) :: t => if k' = k then some v else dictGet k t

/-- Python dict assignment `d[k] = v`: update in place when the key exists
(preserving its position), append otherwise. -/
def dictInsert {β : Type} (d : List (String × β)) (k : String) (v : β) :
    List (String × β) :=
  if (dictGet k d).isSome then
    d.map (fun p => if p.1 = k then (k, v) else p)
  else d ++ [(k, v)]

/-! ### Memory service (`MemoryService`) -/

/-- The stop-word set of `MemoryService._extract_concepts`. -/
def stop_words : List String :=
  ["the", "a", "an", "and", "or", "but", "in", "on", "at", "to", "for",
   "of", "with", "by", "is", "are", "was", "were", "be", "been", "have",
   "has", "had", "do", "does", "did", "will", "would", "could", "should"]

/-- De-duplication keeping first occurrences.  The source computes
`list(set(words))`, whose order CPython leaves unspecified; the claims
depend only on membership and the 10-element cap, so a deterministic
first-occurrence order is used. -/
def dedupAux (seen : List String) : List String → List String
  | [] => []
  | x :: xs =>
    if x ∈ seen then dedupAux seen xs
    else x :: dedupAux (x :: seen) xs

/-- `MemoryService._extract_concepts(query, content)`: lower-case
`f"{query} {content}"`, whitespace-split, keep words of length > 3 that
are not stop words, de-duplicate, cap at 10. -/
def extract_concepts (query content : String) : List String :=
  (dedupAux []
    ((pySplit (lowerStr (query ++ " " ++ content))).filter
      (fun w => w.length > 3 && !(stop_words.contains w)))).take 10

structure ContextNode where
  query : String
  content : String
  user_id : String
deriving Repr, DecidableEq

structure ConceptNode where
  name : String
  frequency : Nat
deriving Repr, DecidableEq

/-- The source keeps a single node dict keyed by `context_<timestamp>` /
`concept_<token>` id strings; the two key families can never collide, so
the graph is modelled with context and concept entries held separately:
contexts keyed by a creation counter (standing for the timestamp id),
concepts keyed by their token.  Retrieval scans only context nodes, so
their relative insertion order — the one order the code observes — is
preserved.  Edges record (context counter, concept token) pairs. -/
structure MemoryService where
  contexts : List (Nat × ContextNode)
  concepts : List (String × ConceptNode)
  edges : List (Nat × String)
  next_ts : Nat
deriving Repr, DecidableEq

/-- One iteration of `MemoryService._create_concept_connections`:
get-or-create the concept node (initial frequency 1, or increment the
stored frequency in place), then record the "mentions" edge. -/
def add_concept (m : MemoryService) (context_id : Nat) (c : String) :
    MemoryService :=
  { m with
    concepts :=
      if (dictGet c m.concepts).isSome then
        m.concepts.map (fun p =>
          if p.1 = c then (p.1, ⟨p.2.name, p.2.frequency + 1⟩) else p)
      else m.concepts ++ [(c, ⟨c, 1⟩)],
    edges := m.edges ++ [(context_id, c)] }

/-- `MemoryService.store_context(query, context_data, user_id)`:
`content` is `context_data["content"]`; the stored `sources` and
`relevance_score` properties are not modelled (nothing verified reads
them).  Returns the new context id and the updated graph. -/
def store_context (m : MemoryService) (query content user_id : String) :
    Nat × MemoryService :=
  let context_id := m.next_ts
  let m1 : MemoryService :=
    { m with
      contexts := m.contexts ++ [(context_id, ⟨query, content, user_id⟩)],
      next_ts := m.next_ts + 1 }
  (context_id,
   (extract_concepts query content).foldl
     (fun acc c => add_concept acc context_id c) m1)

structure RetrievedContext where
  context_id : Nat
  query : String
  content : String
  relevance_score : Nat
deriving Repr, DecidableEq

/-- `retrieve_context` tokenization: `query.lower().split()`. -/
def retrieve_query_terms (query : String) : List String :=
  pySplit (lowerStr query)

/-- The relevance loop of `retrieve_context`: for each query term add 1
when the term occurs in the node content and 2 when it occurs in the
node's stored query (terms counted with multiplicity). -/
def scoreTerms (terms : List String) (content_lower query_lower : String) : Nat :=
  terms.foldl (fun acc term =>
    acc + (if strContains content_lower term then 1 else 0)
        + (if strContains query_lower term then 2 else 0)) 0

/-- Per-node body of the `retrieve_context` scan: skip foreign owners,
score, keep only strictly positive scores. -/
def scoreEntry (terms : List String) (user_id : String)
    (e : Nat × ContextNode) : Option RetrievedContext :=
  if e.2.user_id = user_id then
    let s := scoreTerms terms (lowerStr e.2.content) (lowerStr e.2.query)
    if s > 0 then some ⟨e.1, e.2.query, e.2.content, s⟩ else none
  else none

/-- Stable descending insertion: the element being inserted precedes the
first kept element whose score is less than or equal to its own.  Python
`list.sort(key=..., reverse=True)` is stable, so equal scores keep their
original (insertion) order, which this reproduces. -/
def insertDesc (x : RetrievedContext) :
    List RetrievedContext → List RetrievedContext
  | [] => [x]
  | y :: ys =>
    if y.relevance_score ≤ x.relevance_score then x :: y :: ys
    else y :: insertDesc x ys

def sortDesc (l : List RetrievedContext) : List RetrievedContext :=
  l.foldr insertDesc []

/-- `MemoryService.retrieve_context(query, user_id, max_results)`. -/
def retrieve_context (m : MemoryService) (query user_id : String)
    (max_results : Nat := 5) : List RetrievedContext :=
  (sortDesc (m.contexts.filterMap
    (scoreEntry (retrieve_query_terms query) user_id))).take max_results

def emptyMemory : MemoryService :=
  { contexts := [], concepts := [], edges := [], next_ts := 0 }

/-! ### Claim C5 comparison definitions -/

/-- Following the spec's words for claim C5: the retrieval query tokenized
"in exactly the same way storeContext's concept extraction does" —
lower-cased, whitespace-split, tokens of length ≤ 3 or in the stop-word
set discarded, de-duplicated, capped at 10. -/
def spec_retrieve_tokens (query : String) : List String :=
  (dedupAux []
    ((pySplit (lowerStr query)).filter
      (fun w => w.length > 3 && !(stop_words.contains w)))).take 10

/-- Retrieval as claim C5 describes it: identical to `retrieve_context`
except for the tokenization step. -/
def spec_retrieve_context (m : MemoryService) (query user_id : String)
    (max_results : Nat := 5) : List RetrievedContext :=
  (sortDesc (m.contexts.filterMap
    (scoreEntry (spec_retrieve_tokens query) user_id))).take max_results

/-- Retrieval as the amended claim C5 states it: tokens are the
lower-cased whitespace split of the query with no further filtering,
de-duplication or capping, and the score is the sum over tokens (with
multiplicity) of content/stored-query substring hits. -/
def amended_retrieve_context (m : MemoryService) (query user_id : String)
    (max_results : Nat := 5) : List RetrievedContext :=
  (sortDesc (m.contexts.filterMap (fun e =>
    if e.2.user_id = user_id then
      let s := ((pySplit (lowerStr query)).map (fun t =>
        (if strContains (lowerStr e.2.content) t then 1 else 0) +
        (if strContains (lowerStr e.2.query) t then 2 else 0))).sum
      if s > 0 then some ⟨e.1, e.2.query, e.2.content, s⟩ else none
    else none))).take max_results

/-! ### Registry (`PluginRegistry`, restricted to the tool side the
workflow service uses) -/

structure ToolInput where
  query : String
  step_id : String
  user_id : String

structure ToolOutput where
  data : String

/-- A capability provider; `execute` may raise, which is modelled by the
`Except.error` result. -/
structure Tool where
  execute : ToolInput → Except String ToolOutput

structure Registry where
  tools : List (String × Tool)

/-- `PluginRegistry.get_tool`. -/
def Registry.get_tool (r : Registry) (name : String) : Option Tool :=
  dictGet name r.tools

/-! ### Workflow service (`WorkflowService`) -/

structure WorkflowStep where
  id : String
  type : String
  name : String
  description : String
  depends_on : List String
  estimated_time : Nat
  tool_required : String
deriving Repr, DecidableEq

/-- The four step templates of `_analyze_query_and_create_plan`. -/
def webSearchStep : WorkflowStep :=
  { id := "web_search", type := "search", name := "Web Search",
    description := "Search for relevant information", depends_on := [],
    estimated_time := 30, tool_required := "web_search" }

def documentAnalysisStep : WorkflowStep :=
  { id := "document_analysis", type := "analysis",
    name := "Document Analysis",
    description := "Analyze and extract insights from documents",
    depends_on := ["web_search"], estimated_time := 60,
    tool_required := "document_ingestion" }

def contextRetrievalStep : WorkflowStep :=
  { id := "context_retrieval", type := "retrieval",
    name := "Context Retrieval",
    description := "Retrieve relevant context from memory",
    depends_on := [], estimated_time := 10,
    tool_required := "memory_service" }

def synthesisStep : WorkflowStep :=
  { id := "synthesis", type := "synthesis", name := "Synthesis",
    description := "Synthesize findings into coherent answer",
    depends_on := ["web_search", "document_analysis", "context_retrieval"],
    estimated_time := 30, tool_required := "research_service" }

def interrogative_words : List String :=
  ["what", "how", "why", "when", "where", "who"]

def document_words : List String :=
  ["document", "paper", "article", "study", "research"]

/-- `WorkflowService._analyze_query_and_create_plan`: the search step is
appended when the lower-cased query contains an interrogative word as a
substring, the analysis step when it contains a document word; the
retrieval and synthesis steps are always appended last.  (The `user_id`
argument is unused, as in the source.) -/
def analyze_query_and_create_plan (query : String) (user_id : String) :
    List WorkflowStep :=
  (if interrogative_words.any (fun w => strContains (lowerStr query) w)
   then [webSearchStep] else []) ++
  (if document_words.any (fun w => strContains (lowerStr query) w)
   then [documentAnalysisStep] else []) ++
  [contextRetrievalStep, synthesisStep]

inductive StepPayload
  | toolData (data : String)
  | retrievalData (count : Nat)
  | synthesisData
deriving Repr, DecidableEq

/-- A step result dict.  Absent keys are `none`; the aggregated synthesis
dictionary is abstracted to the `synthesisData` tag (nothing modelled
reads into it); result timestamps are not modelled. -/
structure StepResult where
  status : String
  result : Option StepPayload := none
  error : Option String := none
  reason : Option String := none
  tool_used : Option String := none
deriving Repr, DecidableEq

/-- A `workflow_state` dict (creation/update timestamps omitted: no claim
observes them). -/
structure WorkflowState where
  plan_id : String
  query : String
  user_id : String
  status : String
  steps : List WorkflowStep
  current_step : Nat
  results : List (String × StepResult)
  errors : List String
deriving Repr, DecidableEq

/-- The service state: registry and memory collaborators plus the
`active_workflows` map; `next_plan` stands in for the uuid generator. -/
structure WorkflowService where
  registry : Registry
  memory : MemoryService
  active_workflows : List (String × WorkflowState)
  next_plan : Nat

/-- `WorkflowService.create_research_plan`. -/
def create_research_plan (svc : WorkflowService) (query user_id : String) :
    String × WorkflowService :=
  let plan_id := "plan_" ++ toString svc.next_plan
  let w : WorkflowState :=
    { plan_id := plan_id, query := query, user_id := user_id,
      status := "planning",
      steps := analyze_query_and_create_plan query user_id,
      current_step := 0, results := [], errors := [] }
  (plan_id,
   { svc with
     active_workflows := dictInsert svc.active_workflows plan_id w,
     next_plan := svc.next_plan + 1 })

/-- `WorkflowService._check_dependencies`: every declared dependency id
must have a recorded result whose status is "completed". -/
def check_dependencies (step : WorkflowStep)
    (results : List (String × StepResult)) : Bool :=
  step.depends_on.all (fun dep =>
    match dictGet dep results with
    | some r => r.status == "completed"
    | none => false)

/-- `WorkflowService._execute_search_step`. -/
def execute_search_step (reg : Registry) (step : WorkflowStep)
    (w : WorkflowState) (user_id : String) : Except String StepResult :=
  if !check_dependencies step w.results then
    .ok { status := "skipped", reason := some "Dependencies not met" }
  else
    match reg.get_tool "web_search" with
    | none =>
      .ok { status := "error",
            error := some "Web search tool not available" }
    | some tool =>
      match tool.execute ⟨w.query, step.id, user_id⟩ with
      | .error e => .error e
      | .ok out =>
        .ok { status := "completed", result := some (.toolData out.data),
              tool_used := some "web_search" }

/-- `WorkflowService._execute_analysis_step`. -/
def execute_analysis_step (reg : Registry) (step : WorkflowStep)
    (w : WorkflowState) (user_id : String) : Except String StepResult :=
  if !check_dependencies step w.results then
    .ok { status := "skipped", reason := some "Dependencies not met" }
  else
    match reg.get_tool "document_ingestion" with
    | none =>
      .ok { status := "error",
            error := some "Document ingestion tool not available" }
    | some tool =>
      match tool.execute ⟨"analysis_" ++ strTake w.query 50, step.id, user_id⟩ with
      | .error e => .error e
      | .ok out =>
        .ok { status := "completed", result := some (.toolData out.data),
              tool_used := some "document_ingestion" }

/-- `WorkflowService._execute_retrieval_step`: no dependency check;
always completed. -/
def execute_retrieval_step (mem : MemoryService) (w : WorkflowState)
    (user_id : String) : StepResult :=
  { status := "completed",
    result :=
      some (.retrievalData (retrieve_context mem w.query user_id 5).length),
    tool_used := some "memory_service" }

/-- `WorkflowService._execute_synthesis_step`: no dependency check;
always completed (the aggregated payload is the abstracted
`synthesisData`). -/
def execute_synthesis_step (w : WorkflowState) : StepResult :=
  { status := "completed", result := some .synthesisData,
    tool_used := some "workflow_synthesis" }

/-- `WorkflowService._execute_workflow_step`: dispatch on the step type,
with the surrounding `try`/`except` turning a raised fault into an error
result. -/
def execute_workflow_step (reg : Registry) (mem : MemoryService)
    (step : WorkflowStep) (w : WorkflowState) (user_id : String) :
    StepResult :=
  match
    (if step.type == "search" then execute_search_step reg step w user_id
     else if step.type == "analysis" then
       execute_analysis_step reg step w user_id
     else if step.type == "retrieval" then
       .ok (execute_retrieval_step mem w user_id)
     else if step.type == "synthesis" then
       .ok (execute_synthesis_step w)
     else
       .ok { status := "error",
             error := some ("Unknown step type: " ++ step.type) }) with
  | .ok r => r
  | .error e =>
    { status := "error", error := some ("Step execution failed: " ++ e) }

/-- One iteration of the `execute_research_plan` loop: set
`current_step`, run the step, record its result. -/
def step_iteration (reg : Registry) (mem : MemoryService)
    (user_id : String) (step : WorkflowStep) (i : Nat)
    (w : WorkflowState) : StepResult × WorkflowState :=
  let w1 := { w with current_step := i }
  let r := execute_workflow_step reg mem step w1 user_id
  (r, { w1 with results := dictInsert w1.results step.id r })

/-- The step loop of `execute_research_plan`: on an error result append
to the plan errors, mark the plan `failed` and stop (`break`); otherwise
continue with the next step. -/
def exec_steps (reg : Registry) (mem : MemoryService) (user_id : String) :
    List WorkflowStep → Nat → WorkflowState → WorkflowState
  | [], _, w => w
  | step :: rest, i, w =>
    match step_iteration reg mem user_id step i w with
    | (r, w2) =>
      if r.status == "error" then
        { w2 with
          errors := w2.errors ++
            ["Step " ++ step.id ++ ": " ++ r.error.getD "None"],
          status := "failed" }
      else exec_steps reg mem user_id rest (i + 1) w2

/-- `WorkflowService._store_workflow_results`: persist the synthesis
payload (when present) into the memory graph.  The `json.dumps`
serialization of the payload is abstracted by `serialize_payload`; no
modelled observation reads the stored content. -/
def serialize_payload : StepPayload → String
  | .toolData d => d
  | .retrievalData n => toString n
  | .synthesisData => "synthesis_result"

def store_workflow_results (mem : MemoryService) (w : WorkflowState)
    (user_id : String) : MemoryService :=
  match (dictGet "synthesis" w.results).bind (fun r => r.result) with
  | some p => (store_context mem w.query (serialize_payload p) user_id).2
  | none => mem

/-- `WorkflowService.execute_research_plan`.  The `ValueError`s raised
for an unknown plan or a non-owner caller are the `Except.error` results;
the service state is returned alongside and is unchanged on those
raises. -/
def execute_research_plan (svc : WorkflowService)
    (plan_id user_id : String) :
    Except String WorkflowState × WorkflowService :=
  match dictGet plan_id svc.active_workflows with
  | none => (.error ("Plan " ++ plan_id ++ " not found"), svc)
  | some w0 =>
    if w0.user_id ≠ user_id then
      (.error "Unauthorized access to workflow", svc)
    else
      let w2 := exec_steps svc.registry svc.memory user_id w0.steps 0
        { w0 with status := "executing" }
      let w3 := if w2.status ≠ "failed" then { w2 with status := "completed" }
                else w2
      let mem3 := if w2.status ≠ "failed" then
                    store_workflow_results svc.memory w3 user_id
                  else svc.memory
      (.ok w3,
       { svc with
         memory := mem3,
         active_workflows := dictInsert svc.active_workflows plan_id w3 })

/-- The dict returned by `get_workflow_status` (the float `progress`
field and the timestamps are not modelled). -/
structure WorkflowStatusView where
  plan_id : String
  query : String
  status : String
  current_step : Nat
  total_steps : Nat
  has_errors : Bool
  error_count : Nat
deriving Repr, DecidableEq

/-- `WorkflowService.get_workflow_status`: `None` for an unknown plan or
a non-owner caller. -/
def get_workflow_status (svc : WorkflowService) (plan_id user_id : String) :
    Option WorkflowStatusView :=
  match dictGet plan_id svc.active_workflows with
  | none => none
  | some w =>
    if w.user_id ≠ user_id then none
    else
      some { plan_id := plan_id, query := w.query, status := w.status,
             current_step := w.current_step,
             total_steps := w.steps.length,
             has_errors := decide (w.errors.length > 0),
             error_count := w.errors.length }

/-- The dict returned by `get_workflow_results` (the derived
`execution_summary` aggregate is omitted: floats and set iteration; no
claim observes it). -/
structure WorkflowResultsView where
  plan_id : String
  query : String
  results : List (String × StepResult)
  errors : List String
  status : String
deriving Repr, DecidableEq

/-- `WorkflowService.get_workflow_results`: `None` for an unknown plan or
a non-owner caller. -/
def get_workflow_results (svc : WorkflowService) (plan_id user_id : String) :
    Option WorkflowResultsView :=
  match dictGet plan_id svc.active_workflows with
  | none => none
  | some w =>
    if w.user_id ≠ user_id then none
    else
      some { plan_id := plan_id, query := w.query, results := w.results,
             errors := w.errors, status := w.status }

/-! ### Concrete service states used by the closed theorems -/

def emptyRegistry : Registry := { tools := [] }

def emptyService : WorkflowService :=
  { registry := emptyRegistry, memory := emptyMemory,
    active_workflows := [], next_plan := 0 }

/-- Service after `create_research_plan("What is quantum computing?", "u1")`. -/
def qcSvc1 : WorkflowService :=
  (create_research_plan emptyService "What is quantum computing?" "u1").2

/-- The plan state `qcSvc1` holds under "plan_0". -/
def qcPlanState : WorkflowState :=
  { plan_id := "plan_0", query := "What is quantum computing?",
    user_id := "u1", status := "planning",
    steps := analyze_query_and_create_plan "What is quantum computing?" "u1",
    current_step := 0, results := [], errors := [] }

/-- `qcSvc1` after its owner executes the plan once (no `web_search` tool
registered, so the plan fails at its first step). -/
def qcSvc2 : WorkflowService :=
  (execute_research_plan qcSvc1 "plan_0" "u1").2

/-- The failed plan state `qcSvc2` holds under "plan_0". -/
def qcFailedState : WorkflowState :=
  { qcPlanState with
    status := "failed", current_step := 0,
    results := [("web_search",
      { status := "error", error := some "Web search tool not available" })],
    errors := ["Step web_search: Web search tool not available"] }

/-- Service after `create_research_plan("Summarize this research paper", "u1")`. -/
def docSvc1 : WorkflowService :=
  (create_research_plan emptyService "Summarize this research paper" "u1").2

/-- The plan state `docSvc1` holds under "plan_0". -/
def docPlanState : WorkflowState :=
  { plan_id := "plan_0", query := "Summarize this research paper",
    user_id := "u1", status := "planning",
    steps := analyze_query_and_create_plan "Summarize this research paper" "u1",
    current_step := 0, results := [], errors := [] }

/-- Result of the owner executing the "Summarize this research paper"
plan on `docSvc1`. -/
def docExec : Except String WorkflowState :=
  (execute_research_plan docSvc1 "plan_0" "u1").1

/-- One round of the claim C8 scenario: store the "neural nets" context
for user "u1". -/
def c8Store (m : MemoryService) : MemoryService :=
  (store_context m "neural nets" "neural nets for vision" "u1").2

/-- Five identical contexts already stored for "u1". -/
def c8m5 : MemoryService :=
  c8Store (c8Store (c8Store (c8Store (c8Store emptyMemory))))

/-- The context id of the sixth (round-trip) store. -/
def c8cid : Nat :=
  (store_context c8m5 "neural nets" "neural nets for vision" "u1").1

/-- The graph after the sixth store. -/
def c8m6 : MemoryService :=
  (store_context c8m5 "neural nets" "neural nets for vision" "u1").2

/-- Memory holding one "u1" context whose content contains the stop word
"the" (claim C5 scenario). -/
def c5Mem : MemoryService :=
  (store_context emptyMemory "unrelated" "the theory" "u1").2

/-! ### Dictionary lemmas -/

theorem dictGet_cons {β : Type} (k k' : String) (v : β)
    (t : List (String × β)) :
    dictGet k ((k', v) :: t) = if k' = k then some v else dictGet k t := rfl

theorem dictGet_append_of_none {β : Type} (k : String)
    (l₁ l₂ : List (String × β)) (h : dictGet k l₁ = none) :
    dictGet k (l₁ ++ l₂) = dictGet k l₂ := by
  induction l₁ with
  | nil => rfl
  | cons p t ih =>
    obtain ⟨k', v⟩ := p
    rw [dictGet_cons] at h
    rw [List.cons_append, dictGet_cons]
    by_cases hk : k' = k
    · rw [if_pos hk] at h; cases h
    · rw [if_neg hk] at h
      rw [if_neg hk]
      exact ih h

theorem dictGet_append_of_some {β : Type} (k : String)
    (l₁ l₂ : List (String × β)) (v : β) (h : dictGet k l₁ = some v) :
    dictGet k (l₁ ++ l₂) = some v := by
  induction l₁ with
  | nil => cases h
  | cons p t ih =>
    obtain ⟨k', v'⟩ := p
    rw [dictGet_cons] at h
    rw [List.cons_append, dictGet_cons]
    by_cases hk : k' = k
    · rw [if_pos hk] at h; rw [if_pos hk]; exact h
    · rw [if_neg hk] at h; rw [if_neg hk]; exact ih h

/-- Lookup after a pointwise, key-preserving value update. -/
theorem dictGet_map_entry {β : Type} (g : String → β → β) (k : String) :
    ∀ l : List (String × β),
      dictGet k (l.map (fun p => (p.1, g p.1 p.2))) =
        (dictGet k l).map (g k) := by
  intro l
  induction l with
  | nil => rfl
  | cons p t ih =>
    obtain ⟨k', v⟩ := p
    rw [List.map_cons, dictGet_cons, dictGet_cons]
    by_cases hk : k' = k
    · subst hk; rw [if_pos rfl, if_pos rfl, Option.map_some']
    · rw [if_neg hk, if_neg hk]; exact ih

theorem dictGet_map_update_self {β : Type} (k : String) (v : β) :
    ∀ l : List (String × β), (dictGet k l).isSome →
      dictGet k (l.map (fun p => if p.1 = k then (k, v) else p)) = some v := by
  intro l
  induction l with
  | nil => intro h; cases h
  | cons p t ih =>
    obtain ⟨k', v'⟩ := p
    intro h
    by_cases hk : k' = k
    · subst hk
      simp [dictGet_cons]
    · rw [dictGet_cons, if_neg hk] at h
      simpa [dictGet_cons, hk] using ih h

theorem dictGet_map_update_ne {β : Type} (k k₀ : String) (v : β)
    (hne : k₀ ≠ k) :
    ∀ l : List (String × β),
      dictGet k₀ (l.map (fun p => if p.1 = k then (k, v) else p)) =
        dictGet k₀ l := by
  intro l
  induction l with
  | nil => rfl
  | cons p t ih =>
    obtain ⟨k', v'⟩ := p
    by_cases hk : k' = k
    · subst hk
      simp [dictGet_cons, Ne.symm hne, ih]
    · simp [dictGet_cons, hk, ih]

theorem dictGet_dictInsert_self {β : Type} (d : List (String × β))
    (k : String) (v : β) : dictGet k (dictInsert d k v) = some v := by
  unfold dictInsert
  by_cases h : (dictGet k d).isSome
  · rw [if_pos h]; exact dictGet_map_update_self k v d h
  · rw [if_neg h]
    have hnone : dictGet k d = none := by
      cases hd : dictGet k d
      · rfl
      · rw [hd] at h; simp at h
    rw [dictGet_append_of_none k d [(k, v)] hnone, dictGet_cons, if_pos rfl]

theorem dictGet_dictInsert_ne {β : Type} (d : List (String × β))
    (k k₀ : String) (v : β) (hne : k₀ ≠ k) :
    dictGet k₀ (dictInsert d k v) = dictGet k₀ d := by
  unfold dictInsert
  by_cases h : (dictGet k d).isSome
  · rw [if_pos h]; exact dictGet_map_update_ne k k₀ v hne d
  · rw [if_neg h]
    cases hd : dictGet k₀ d with
    | some v' => exact dictGet_append_of_some k₀ d [(k, v)] v' hd
    | none =>
      rw [dictGet_append_of_none k₀ d [(k, v)] hd, dictGet_cons,
        if_neg (fun hkk => hne hkk.symm)]
      rfl

/-! ### De-duplication lemmas -/

theorem not_mem_seen_of_mem_dedupAux :
    ∀ (l seen : List String) (x : String),
      x ∈ dedupAux seen l → x ∉ seen := by
  intro l
  induction l with
  | nil => intro seen x h; cases h
  | cons y ys ih =>
    intro seen x h
    by_cases hy : y ∈ seen
    · rw [dedupAux, if_pos hy] at h
      exact ih seen x h
    · rw [dedupAux, if_neg hy] at h
      rcases List.mem_cons.mp h with rfl | h'
      · exact hy
      · intro hx
        exact (ih _ x h') (List.mem_cons_of_mem _ hx)

theorem nodup_dedupAux : ∀ (l seen : List String), (dedupAux seen l).Nodup := by
  intro l
  induction l with
  | nil => intro seen; exact List.nodup_nil
  | cons y ys ih =>
    intro seen
    rw [dedupAux]
    by_cases hy : y ∈ seen
    · rw [if_pos hy]; exact ih seen
    · rw [if_neg hy]
      refine List.nodup_cons.mpr ⟨?_, ih (y :: seen)⟩
      intro hmem
      exact (not_mem_seen_of_mem_dedupAux ys (y :: seen) y hmem)
        (List.mem_cons_self y seen)

theorem extract_concepts_nodup (q c : String) :
    (extract_concepts q c).Nodup :=
  (List.take_sublist 10 _).nodup (nodup_dedupAux _ _)

/-! ### Concept-frequency lemmas -/

/-- The in-place frequency bump of `add_concept`, as a key-preserving
entry map (used to apply `dictGet_map_entry`). -/
theorem bump_map_eq (c : String) :
    (fun p : String × ConceptNode =>
      if p.1 = c then (p.1, (⟨p.2.name, p.2.frequency + 1⟩ : ConceptNode))
      else p) =
    (fun p : String × ConceptNode =>
      (p.1, (fun key val =>
        if key = c then (⟨val.name, val.frequency + 1⟩ : ConceptNode)
        else val) p.1 p.2)) := by
  funext p
  by_cases hp : p.1 = c <;> simp [hp]

theorem add_concept_lookup_self (m : MemoryService) (ctx : Nat) (c : String) :
    dictGet c (add_concept m ctx c).concepts =
      some (match dictGet c m.concepts with
            | none => ⟨c, 1⟩
            | some n => ⟨n.name, n.frequency + 1⟩) := by
  show dictGet c (if (dictGet c m.concepts).isSome then _ else _) = _
  cases h : dictGet c m.concepts with
  | none =>
    rw [if_neg (by simp)]
    rw [dictGet_append_of_none c m.concepts [(c, ⟨c, 1⟩)] h, dictGet_cons,
      if_pos rfl]
  | some n =>
    rw [if_pos (by simp)]
    rw [bump_map_eq c,
      dictGet_map_entry
        (fun key val =>
          if key = c then (⟨val.name, val.frequency + 1⟩ : ConceptNode)
          else val) c m.concepts,
      h, Option.map_some', if_pos rfl]

theorem add_concept_lookup_ne (m : MemoryService) (ctx : Nat) (c t₀ : String)
    (hne : t₀ ≠ c) :
    dictGet t₀ (add_concept m ctx c).concepts = dictGet t₀ m.concepts := by
  show dictGet t₀ (if (dictGet c m.concepts).isSome then _ else _) = _
  by_cases h : (dictGet c m.concepts).isSome
  · rw [if_pos h]
    rw [bump_map_eq c,
      dictGet_map_entry
        (fun key val =>
          if key = c then (⟨val.name, val.frequency + 1⟩ : ConceptNode)
          else val) t₀ m.concepts]
    cases ht : dictGet t₀ m.concepts with
    | none => rfl
    | some n => rw [Option.map_some', if_neg hne]
  · rw [if_neg h]
    cases ht : dictGet t₀ m.concepts with
    | some n => exact dictGet_append_of_some t₀ m.concepts [(c, ⟨c, 1⟩)] n ht
    | none =>
      rw [dictGet_append_of_none t₀ m.concepts [(c, ⟨c, 1⟩)] ht, dictGet_cons,
        if_neg (fun hc => hne hc.symm)]
      rfl

theorem fold_add_concept_lookup_of_not_mem (ctx : Nat) (t : String) :
    ∀ (L : List String) (m : MemoryService), t ∉ L →
      dictGet t ((L.foldl (fun a c => add_concept a ctx c) m)).concepts =
        dictGet t m.concepts := by
  intro L
  induction L with
  | nil => intro m _; rfl
  | cons c cs ih =>
    intro m hne
    rw [List.foldl_cons,
      ih _ (fun h => hne (List.mem_cons_of_mem _ h)),
      add_concept_lookup_ne m ctx c t
        (fun h => hne (h ▸ List.mem_cons_self c cs))]

theorem fold_add_concept_lookup_of_mem (ctx : Nat) (t : String) :
    ∀ (L : List String) (m : MemoryService), L.Nodup → t ∈ L →
      dictGet t ((L.foldl (fun a c => add_concept a ctx c) m)).concepts =
        some (match dictGet t m.concepts with
              | none => ⟨t, 1⟩
              | some n => ⟨n.name, n.frequency + 1⟩) := by
  intro L
  induction L with
  | nil => intro m _ h; cases h
  | cons c cs ih =>
    intro m hnd hmem
    rw [List.foldl_cons]
    rcases List.mem_cons.mp hmem with rfl | hmem'
    · rw [fold_add_concept_lookup_of_not_mem ctx t cs _
        (List.nodup_cons.mp hnd).1]
      exact add_concept_lookup_self m ctx t
    · have hne : t ≠ c := by
        rintro rfl
        exact (List.nodup_cons.mp hnd).1 hmem'
      rw [ih _ (List.nodup_cons.mp hnd).2 hmem',
        add_concept_lookup_ne m ctx c t hne]

theorem store_context_concept_lookup (m : MemoryService) (q c u t : String)
    (hmem : t ∈ extract_concepts q c) :
    dictGet t (store_context m q c u).2.concepts =
      some (match dictGet t m.concepts with
            | none => ⟨t, 1⟩
            | some n => ⟨n.name, n.frequency + 1⟩) := by
  unfold store_context
  exact fold_add_concept_lookup_of_mem m.next_ts t (extract_concepts q c) _
    (extract_concepts_nodup q c) hmem

/-! ### Context-list and retrieval lemmas -/

theorem fold_add_concept_contexts (ctx : Nat) :
    ∀ (L : List String) (m : MemoryService),
      (L.foldl (fun a c => add_concept a ctx c) m).contexts = m.contexts := by
  intro L
  induction L with
  | nil => intro m; rfl
  | cons c cs ih => intro m; rw [List.foldl_cons]; exact ih _

theorem store_context_contexts (m : MemoryService) (q c u : String) :
    (store_context m q c u).2.contexts =
      m.contexts ++ [(m.next_ts, ⟨q, c, u⟩)] := by
  unfold store_context
  exact fold_add_concept_contexts m.next_ts (extract_concepts q c) _

theorem length_insertDesc (x : RetrievedContext) :
    ∀ l, (insertDesc x l).length = l.length + 1 := by
  intro l
  induction l with
  | nil => rfl
  | cons y ys ih =>
    rw [insertDesc]
    split
    · rfl
    · rw [List.length_cons, List.length_cons, ih]

theorem length_sortDesc : ∀ l, (sortDesc l).length = l.length := by
  intro l
  induction l with
  | nil => rfl
  | cons y ys ih =>
    show (insertDesc y (sortDesc ys)).length = ys.length + 1
    rw [length_insertDesc, ih]

theorem mem_insertDesc (x y : RetrievedContext) :
    ∀ l, y ∈ insertDesc x l ↔ y = x ∨ y ∈ l := by
  intro l
  induction l with
  | nil => simp [insertDesc]
  | cons z zs ih =>
    rw [insertDesc]
    split
    · simp [List.mem_cons]
    · rw [List.mem_cons, ih, List.mem_cons]
      tauto

theorem mem_sortDesc (y : RetrievedContext) :
    ∀ l, y ∈ sortDesc l ↔ y ∈ l := by
  intro l
  induction l with
  | nil => simp [sortDesc]
  | cons z zs ih =>
    show y ∈ insertDesc z (sortDesc zs) ↔ _
    rw [mem_insertDesc, ih, List.mem_cons]

theorem length_filterMap_le_length_filter {α β : Type} (f : α → Option β)
    (p : α → Bool) (hfp : ∀ a, (f a).isSome → p a = true) :
    ∀ l : List α, (l.filterMap f).length ≤ (l.filter p).length := by
  intro l
  induction l with
  | nil => simp
  | cons a t ih =>
    rw [List.filterMap_cons, List.filter_cons]
    cases hfa : f a with
    | none =>
      by_cases hpa : p a
      · rw [if_pos hpa, List.length_cons]
        exact Nat.le_succ_of_le ih
      · rw [if_neg hpa]
        exact ih
    | some b =>
      rw [hfp a (by rw [hfa]; simp), if_pos rfl, List.length_cons,
        List.length_cons]
      exact Nat.succ_le_succ ih

theorem scoreTerms_eq_sum (terms : List String) (cl ql : String) :
    scoreTerms terms cl ql =
      (terms.map (fun t =>
        (if strContains cl t then 1 else 0) +
        (if strContains ql t then 2 else 0))).sum := by
  have haux : ∀ (ts : List String) (n : Nat),
      ts.foldl (fun acc term =>
        acc + (if strContains cl term then 1 else 0)
            + (if strContains ql term then 2 else 0)) n =
        n + (ts.map (fun t =>
          (if strContains cl t then 1 else 0) +
          (if strContains ql t then 2 else 0))).sum := by
    intro ts
    induction ts with
    | nil => intro n; simp
    | cons t ts ih =>
      intro n
      rw [List.foldl_cons, ih, List.map_cons, List.sum_cons]
      omega
  simpa [scoreTerms] using haux terms 0

/-! ### Execution-loop lemmas -/

/-- Outcome of the step loop: either it ran to the end without a fatal
step (status and error list unchanged), or it stopped at an error result
(status `failed`, exactly one message appended). -/
theorem exec_steps_outcome (reg : Registry) (mem : MemoryService)
    (uid : String) :
    ∀ (steps : List WorkflowStep) (i : Nat) (w : WorkflowState),
      ((exec_steps reg mem uid steps i w).status = w.status ∧
       (exec_steps reg mem uid steps i w).errors = w.errors) ∨
      ((exec_steps reg mem uid steps i w).status = "failed" ∧
       (exec_steps reg mem uid steps i w).errors.length =
         w.errors.length + 1) := by
  intro steps
  induction steps with
  | nil => intro i w; exact Or.inl ⟨rfl, rfl⟩
  | cons step rest ih =>
    intro i w
    simp only [exec_steps, step_iteration]
    split
    · exact Or.inr ⟨rfl, by simp⟩
    · exact ih (i + 1) _

/-- Fate of a plan whose first step is a dependency-free search step
while no `web_search` tool is registered: the step errors, the plan
fails, one error message is appended, and no later step runs. -/
theorem exec_steps_search_missing (reg : Registry) (mem : MemoryService)
    (uid : String) (s : WorkflowStep) (rest : List WorkflowStep)
    (w : WorkflowState) (hty : s.type = "search") (hdeps : s.depends_on = [])
    (htool : reg.get_tool "web_search" = none) :
    exec_steps reg mem uid (s :: rest) 0 w =
      { w with
        status := "failed", current_step := 0,
        results := dictInsert w.results s.id
          { status := "error",
            error := some "Web search tool not available" },
        errors := w.errors ++
          ["Step " ++ s.id ++ ": " ++ "Web search tool not available"] } := by
  have hstep :
      execute_workflow_step reg mem s { w with current_step := 0 } uid =
        { status := "error",
          error := some "Web search tool not available" } := by
    unfold execute_workflow_step execute_search_step
    simp [hty, check_dependencies, hdeps, htool]
  simp only [exec_steps, step_iteration, hstep]
  rfl

/-- `execute_research_plan` on such a plan, through the ownership gate. -/
theorem execute_first_search_missing (svc : WorkflowService)
    (pid uid : String) (w : WorkflowState) (s : WorkflowStep)
    (rest : List WorkflowStep)
    (hw : dictGet pid svc.active_workflows = some w)
    (hu : w.user_id = uid)
    (hsteps : w.steps = s :: rest)
    (hty : s.type = "search")
    (hdeps : s.depends_on = [])
    (htool : svc.registry.get_tool "web_search" = none) :
    (execute_research_plan svc pid uid).1 =
      .ok { w with
        status := "failed", current_step := 0,
        results := dictInsert w.results s.id
          { status := "error",
            error := some "Web search tool not available" },
        errors := w.errors ++
          ["Step " ++ s.id ++ ": " ++ "Web search tool not available"] } := by
  have hx : exec_steps svc.registry svc.memory uid w.steps 0
      { w with status := "executing" } =
      { w with
        status := "failed", current_step := 0,
        results := dictInsert w.results s.id
          { status := "error",
            error := some "Web search tool not available" },
        errors := w.errors ++
          ["Step " ++ s.id ++ ": " ++ "Web search tool not available"] } := by
    have hrun := exec_steps_search_missing svc.registry svc.memory uid s rest
      { w with status := "executing" } hty hdeps htool
    rw [← hsteps] at hrun
    exact hrun
  unfold execute_research_plan
  rw [hw]
  dsimp only
  rw [if_neg (by simp [hu])]
  dsimp only
  rw [hx]
  rw [if_neg (by simp)]

/-! ### Claim theorems — workflow engine -/

/-- C1 (counterexample): executing the plan for "Summarize this research
paper" records the `synthesis` step as `completed` even though its
declared dependencies `web_search` (absent) and `document_analysis`
(recorded `skipped`) are not completed — and the skip reason is spelled
"Dependencies not met", not "dependency not met".  This refutes the claim
that a step is never `completed` unless all its dependencies are. -/
theorem c1_counterexample :
    (docExec.toOption.bind (fun w => dictGet "synthesis" w.results)).map
        StepResult.status = some "completed" ∧
    (docExec.toOption.bind (fun w => dictGet "document_analysis" w.results)).map
        StepResult.status = some "skipped" ∧
    ((docExec.toOption.bind (fun w => dictGet "document_analysis" w.results)).bind
        StepResult.reason) = some "Dependencies not met" ∧
    "document_analysis" ∈ synthesisStep.depends_on ∧
    (docExec.toOption.map (fun w => w.steps.contains synthesisStep)) =
      some true := by
  refine ⟨?_, ?_, ?_, ?_, ?_⟩ <;> decide

/-- C1 (amended): only `search` and `analysis` steps are
dependency-gated: such a step is recorded `completed` only when every
declared dependency has a `completed` result, and when the check fails it
is recorded `skipped` with reason "Dependencies not met" (and execution
continues).  Retrieval and synthesis steps are not checked. -/
theorem c1_gating_amended (reg : Registry) (mem : MemoryService)
    (step : WorkflowStep) (w : WorkflowState) (uid : String)
    (hty : step.type = "search" ∨ step.type = "analysis") :
    ((execute_workflow_step reg mem step w uid).status = "completed" →
      check_dependencies step w.results = true) ∧
    (check_dependencies step w.results = false →
      execute_workflow_step reg mem step w uid =
        { status := "skipped", reason := some "Dependencies not met" }) := by
  cases hdep : check_dependencies step w.results
  case false =>
    have hskip : execute_workflow_step reg mem step w uid =
        { status := "skipped", reason := some "Dependencies not met" } := by
      rcases hty with hty | hty <;>
        simp [execute_workflow_step, execute_search_step,
          execute_analysis_step, hty, hdep]
    constructor
    · intro hcomp
      rw [hskip] at hcomp
      exact absurd hcomp (by decide)
    · intro _
      exact hskip
  case true =>
    exact ⟨fun _ => rfl, fun hfalse => absurd hfalse (by decide)⟩

theorem c1_gating_amended_witness :
    ((execute_workflow_step emptyRegistry emptyMemory documentAnalysisStep
        docPlanState "u1").status = "completed" →
      check_dependencies documentAnalysisStep docPlanState.results = true) ∧
    (check_dependencies documentAnalysisStep docPlanState.results = false →
      execute_workflow_step emptyRegistry emptyMemory documentAnalysisStep
          docPlanState "u1" =
        { status := "skipped", reason := some "Dependencies not met" }) :=
  c1_gating_amended emptyRegistry emptyMemory documentAnalysisStep
    docPlanState "u1" (Or.inr rfl)

/-- C2 (counterexample): the plan for "What is quantum computing?" is in
the terminal status `failed` with one recorded error after its first
execution (no `web_search` tool registered); a second `execute_research_plan`
call by the owner nonetheless re-executes it, and afterwards the error
list has two entries — a terminal plan was mutated by an engine call. -/
theorem c2_counterexample :
    (dictGet "plan_0" qcSvc2.active_workflows).map
        (fun w => (w.status, w.errors.length)) = some ("failed", 1) ∧
    ((execute_research_plan qcSvc2 "plan_0" "u1").1.toOption.map
        (fun w => w.errors.length)) = some 2 := by
  refine ⟨?_, ?_⟩ <;> decide

/-- C2 (amended): terminal statuses are not enforced.  `getStatus` and
`getResults` are read-only, but a repeated `executePlan` by the owner on
a plan already in the terminal status `failed` re-enters execution and
mutates the plan: with its search capability still unregistered the run
fails again and appends one more error message. -/
theorem c2_terminal_not_enforced (svc : WorkflowService) (pid uid : String)
    (w : WorkflowState) (s : WorkflowStep) (rest : List WorkflowStep)
    (hw : dictGet pid svc.active_workflows = some w)
    (hu : w.user_id = uid)
    (hterm : w.status = "failed")
    (hsteps : w.steps = s :: rest)
    (hty : s.type = "search")
    (hdeps : s.depends_on = [])
    (htool : svc.registry.get_tool "web_search" = none) :
    ∃ w_1, (execute_research_plan svc pid uid).1 = .ok w_1 ∧
      w_1.status = "failed" ∧
      w_1.errors.length = w.errors.length + 1 := by
  refine ⟨_, execute_first_search_missing svc pid uid w s rest hw hu hsteps
    hty hdeps htool, rfl, ?_⟩
  simp

theorem c2_terminal_not_enforced_witness :
    ∃ w_1, (execute_research_plan qcSvc2 "plan_0" "u1").1 = .ok w_1 ∧
      w_1.status = "failed" ∧
      w_1.errors.length = qcFailedState.errors.length + 1 :=
  c2_terminal_not_enforced qcSvc2 "plan_0" "u1" qcFailedState webSearchStep
    [contextRetrievalStep, synthesisStep] (by decide) rfl rfl (by decide)
    rfl rfl rfl

/-- C3 (counterexample): with a caller other than the owner,
`get_workflow_status` and `get_workflow_results` return `None` (an absent
result) rather than failing, and `execute_research_plan` raises
`ValueError("Unauthorized access to workflow")` — there is no
AuthorizationError anywhere. -/
theorem c3_counterexample :
    get_workflow_status qcSvc1 "plan_0" "u2" = none ∧
    get_workflow_results qcSvc1 "plan_0" "u2" = none ∧
    (execute_research_plan qcSvc1 "plan_0" "u2").1 =
      .error "Unauthorized access to workflow" :=
  ⟨rfl, rfl, rfl⟩

/-- C3 (amended): for every existing plan and non-owner caller,
`executePlan` raises `ValueError("Unauthorized access to workflow")` and
leaves the service state unchanged, while `getStatus` and `getResults`
return `None`; no operation succeeds or leaks plan data. -/
theorem c3_ownership_amended (svc : WorkflowService) (pid uid : String)
    (w : WorkflowState) (hw : dictGet pid svc.active_workflows = some w)
    (hu : w.user_id ≠ uid) :
    (execute_research_plan svc pid uid).1 =
      .error "Unauthorized access to workflow" ∧
    (execute_research_plan svc pid uid).2 = svc ∧
    get_workflow_status svc pid uid = none ∧
    get_workflow_results svc pid uid = none := by
  unfold execute_research_plan get_workflow_status get_workflow_results
  rw [hw]
  simp [hu]

theorem c3_ownership_amended_witness :
    (execute_research_plan qcSvc1 "plan_0" "u2").1 =
      .error "Unauthorized access to workflow" ∧
    (execute_research_plan qcSvc1 "plan_0" "u2").2 = qcSvc1 ∧
    get_workflow_status qcSvc1 "plan_0" "u2" = none ∧
    get_workflow_results qcSvc1 "plan_0" "u2" = none :=
  c3_ownership_amended qcSvc1 "plan_0" "u2" qcPlanState rfl (by decide)

/-- C4 (counterexample): the plan for "Summarize this research paper"
contains an `analysis` step whose dependency set is `["web_search"]`
although the plan contains no search step at all, refuting the claim that
the analysis step depends on search exactly when a search step is
present. -/
theorem c4_counterexample :
    (analyze_query_and_create_plan "Summarize this research paper"
        "u1").head? = some documentAnalysisStep ∧
    documentAnalysisStep.depends_on = ["web_search"] ∧
    (analyze_query_and_create_plan "Summarize this research paper"
        "u1").any (fun s => s.id == "web_search") = false := by
  refine ⟨?_, ?_, ?_⟩ <;> decide

/-- C4 (amended): an `analysis` step is included exactly when the
lower-cased query contains one of document/paper/article/study/research
as a substring, and when included its dependency set is always exactly
`["web_search"]`, whether or not a search step is present in the plan. -/
theorem c4_analysis_amended (q u : String) :
    ((analyze_query_and_create_plan q u).any
        (fun s => s.type == "analysis")) =
      document_words.any (fun w => strContains (lowerStr q) w) ∧
    ∀ s ∈ analyze_query_and_create_plan q u,
      s.type = "analysis" → s.depends_on = ["web_search"] := by
  unfold analyze_query_and_create_plan
  cases hi : interrogative_words.any (fun w => strContains (lowerStr q) w) <;>
    cases hd : document_words.any (fun w => strContains (lowerStr q) w) <;>
      simp [webSearchStep, documentAnalysisStep, contextRetrievalStep,
        synthesisStep]

theorem c4_analysis_amended_witness :
    ((analyze_query_and_create_plan "Summarize this research paper"
        "u1").any (fun s => s.type == "analysis")) =
      document_words.any
        (fun w => strContains (lowerStr "Summarize this research paper") w) ∧
    documentAnalysisStep.depends_on = ["web_search"] :=
  ⟨(c4_analysis_amended "Summarize this research paper" "u1").1,
   (c4_analysis_amended "Summarize this research paper" "u1").2
     documentAnalysisStep (by decide) rfl⟩

/-- C6: executing a plan (found, owner calling) whose first step is a
dependency-free search step while the `web_search` capability is not
registered records that step as `error` with "Web search tool not
available", sets the plan status to `failed`, leaves at least one
plan-level error, and executes no further step (every other result entry
is untouched). -/
theorem c6_missing_capability (svc : WorkflowService) (pid uid : String)
    (w : WorkflowState) (s : WorkflowStep) (rest : List WorkflowStep)
    (hw : dictGet pid svc.active_workflows = some w)
    (hu : w.user_id = uid)
    (hsteps : w.steps = s :: rest)
    (hty : s.type = "search")
    (hdeps : s.depends_on = [])
    (htool : svc.registry.get_tool "web_search" = none) :
    ∃ w_1, (execute_research_plan svc pid uid).1 = .ok w_1 ∧
      dictGet s.id w_1.results =
        some { status := "error",
               error := some "Web search tool not available" } ∧
      w_1.status = "failed" ∧
      1 ≤ w_1.errors.length ∧
      ∀ k, k ≠ s.id → dictGet k w_1.results = dictGet k w.results := by
  refine ⟨_, execute_first_search_missing svc pid uid w s rest hw hu hsteps
    hty hdeps htool, ?_, rfl, ?_, ?_⟩
  · exact dictGet_dictInsert_self w.results s.id _
  · simp
  · intro k hk
    exact dictGet_dictInsert_ne w.results s.id k _ hk

theorem c6_missing_capability_witness :
    ∃ w_1, (execute_research_plan qcSvc1 "plan_0" "u1").1 = .ok w_1 ∧
      dictGet webSearchStep.id w_1.results =
        some { status := "error",
               error := some "Web search tool not available" } ∧
      w_1.status = "failed" ∧
      1 ≤ w_1.errors.length ∧
      ∀ k, k ≠ webSearchStep.id →
        dictGet k w_1.results = dictGet k qcPlanState.results :=
  c6_missing_capability qcSvc1 "plan_0" "u1" qcPlanState webSearchStep
    [contextRetrievalStep, synthesisStep] rfl rfl (by decide) rfl rfl rfl

/-- C7: `create_research_plan("What is quantum computing?", "u1")` yields
the plan "plan_0" whose steps are exactly one search, one retrieval and
one synthesis step (no analysis step), with initial status `planning`. -/
theorem c7_quantum_plan :
    (create_research_plan emptyService "What is quantum computing?"
        "u1").1 = "plan_0" ∧
    dictGet "plan_0" qcSvc1.active_workflows = some qcPlanState ∧
    qcPlanState.status = "planning" ∧
    qcPlanState.steps.map WorkflowStep.type =
      ["search", "retrieval", "synthesis"] ∧
    qcPlanState.steps.map WorkflowStep.id =
      ["web_search", "context_retrieval", "synthesis"] := by
  refine ⟨rfl, rfl, rfl, ?_, ?_⟩ <;> decide

/-- C10: for a stored plan executed by its owner, `execute_research_plan`
always returns the workflow state normally (never propagates an
exception), whatever the registered tools do — any tool fault is caught
and converted into a `failed` plan with exactly one message appended to
the error list, and otherwise the plan completes. -/
theorem c10_no_exception_escape (svc : WorkflowService) (pid uid : String)
    (w : WorkflowState)
    (hw : dictGet pid svc.active_workflows = some w)
    (hu : w.user_id = uid) :
    ∃ w_1, (execute_research_plan svc pid uid).1 = .ok w_1 ∧
      (w_1.status = "completed" ∨
       (w_1.status = "failed" ∧
        w_1.errors.length = w.errors.length + 1)) := by
  unfold execute_research_plan
  rw [hw]
  dsimp only
  rw [if_neg (by simp [hu])]
  dsimp only
  rcases exec_steps_outcome svc.registry svc.memory uid w.steps 0
      { w with status := "executing" } with ⟨h1, h2⟩ | ⟨h1, h2⟩
  · have h1e : (exec_steps svc.registry svc.memory uid w.steps 0
        { w with status := "executing" }).status = "executing" := h1
    refine ⟨_, rfl, Or.inl ?_⟩
    rw [if_pos (by rw [h1e]; decide)]
  · refine ⟨_, rfl, Or.inr ?_⟩
    rw [if_neg (by rw [h1]; simp)]
    exact ⟨h1, h2⟩

theorem c10_no_exception_escape_witness :
    ∃ w_1, (execute_research_plan qcSvc1 "plan_0" "u1").1 = .ok w_1 ∧
      (w_1.status = "completed" ∨
       (w_1.status = "failed" ∧
        w_1.errors.length = qcPlanState.errors.length + 1)) :=
  c10_no_exception_escape qcSvc1 "plan_0" "u1" qcPlanState rfl rfl

/-! ### Claim theorems — memory graph -/

/-- C5 (counterexample): `retrieve_context` does not tokenize its query
the way concept extraction does.  For the query "the" the extraction
pipeline yields no tokens (stop word of length 3), yet `retrieve_context`
keeps the raw token and returns a stored context with score 1; retrieval
with the extraction-style tokenization would return nothing. -/
theorem c5_counterexample :
    retrieve_query_terms "the" = ["the"] ∧
    spec_retrieve_tokens "the" = [] ∧
    (retrieve_context c5Mem "the" "u1" 5).map
        RetrievedContext.relevance_score = [1] ∧
    spec_retrieve_context c5Mem "the" "u1" 5 = [] := by
  refine ⟨?_, ?_, ?_, ?_⟩ <;> decide

/-- C5 (amended): `retrieve_context` tokenizes its query by lower-casing
and whitespace-splitting only — with no length filter, stop-word filter,
de-duplication or 10-token cap — and sums, over the tokens with
multiplicity, 1 per content substring hit plus 2 per stored-query
substring hit. -/
theorem c5_retrieve_tokenization_amended (m : MemoryService)
    (q u : String) (k : Nat) :
    retrieve_context m q u k = amended_retrieve_context m q u k := by
  have hfun : scoreEntry (retrieve_query_terms q) u =
      (fun e : Nat × ContextNode =>
        if e.2.user_id = u then
          let s := ((pySplit (lowerStr q)).map (fun t =>
            (if strContains (lowerStr e.2.content) t then 1 else 0) +
            (if strContains (lowerStr e.2.query) t then 2 else 0))).sum
          if s > 0 then some ⟨e.1, e.2.query, e.2.content, s⟩ else none
        else none) := by
    funext e
    show scoreEntry (pySplit (lowerStr q)) u e = _
    unfold scoreEntry
    rw [scoreTerms_eq_sum]
  unfold retrieve_context amended_retrieve_context
  rw [hfun]

theorem c5_retrieve_tokenization_amended_witness :
    retrieve_context c5Mem "the" "u1" 5 =
      amended_retrieve_context c5Mem "the" "u1" 5 :=
  c5_retrieve_tokenization_amended c5Mem "the" "u1" 5

/-- C8 (counterexample): with five identical higher-or-equally-ranked
"u1" contexts already stored, the round-trip store of a sixth identical
context is not returned by `retrieve_context(..., 5)`: the stable
descending sort keeps the five older nodes (ids 0–4) ahead of the new
node (id 5), which the `max_results` cut then drops.  The claim fails
for this (reachable) starting state. -/
theorem c8_counterexample :
    c8cid = 5 ∧
    ((retrieve_context c8m6 "neural nets" "u1" 5).map
      RetrievedContext.context_id) = [0, 1, 2, 3, 4] := by
  refine ⟨?_, ?_⟩ <;> decide

/-- C8 (amended): on a graph in which user "u1" owns at most 4 context
nodes, storing the "neural nets" context and then retrieving with the
same query returns the just-stored context with a strictly positive
relevance score (namely 6). -/
theorem c8_roundtrip_amended (m : MemoryService)
    (hcount : (m.contexts.filter
      (fun e => e.2.user_id == "u1")).length ≤ 4) :
    ∃ rc ∈ retrieve_context
        (store_context m "neural nets" "neural nets for vision" "u1").2
        "neural nets" "u1" 5,
      rc.context_id =
        (store_context m "neural nets" "neural nets for vision" "u1").1 ∧
      0 < rc.relevance_score := by
  have hterms : retrieve_query_terms "neural nets" = ["neural", "nets"] := by
    decide
  have hnew : ∀ n : Nat, scoreEntry ["neural", "nets"] "u1"
      (n, ⟨"neural nets", "neural nets for vision", "u1"⟩) =
      some ⟨n, "neural nets", "neural nets for vision", 6⟩ := fun n => rfl
  have hsome : ∀ e : Nat × ContextNode,
      (scoreEntry ["neural", "nets"] "u1" e).isSome →
        (fun e : Nat × ContextNode => e.2.user_id == "u1") e = true := by
    intro e h
    by_cases hu : e.2.user_id = "u1"
    · simp [hu]
    · exfalso
      unfold scoreEntry at h
      rw [if_neg hu] at h
      simp at h
  have hctx :=
    store_context_contexts m "neural nets" "neural nets for vision" "u1"
  unfold retrieve_context
  rw [hterms, hctx, List.filterMap_append]
  have hsingle : List.filterMap (scoreEntry ["neural", "nets"] "u1")
      [(m.next_ts, ⟨"neural nets", "neural nets for vision", "u1"⟩)] =
      [⟨m.next_ts, "neural nets", "neural nets for vision", 6⟩] := by
    rw [List.filterMap_cons, hnew m.next_ts]
    rfl
  rw [hsingle]
  have hlen : (List.filterMap (scoreEntry ["neural", "nets"] "u1")
      m.contexts).length ≤ 4 :=
    le_trans (length_filterMap_le_length_filter
      (scoreEntry ["neural", "nets"] "u1")
      (fun e : Nat × ContextNode => e.2.user_id == "u1") hsome m.contexts)
      hcount
  have hlen5 : (List.filterMap (scoreEntry ["neural", "nets"] "u1")
        m.contexts ++
      [(⟨m.next_ts, "neural nets", "neural nets for vision", 6⟩ :
        RetrievedContext)]).length ≤ 5 := by
    rw [List.length_append]
    simp only [List.length_singleton]
    omega
  rw [List.take_of_length_le (by rw [length_sortDesc]; exact hlen5)]
  refine ⟨⟨m.next_ts, "neural nets", "neural nets for vision", 6⟩, ?_, ?_, ?_⟩
  · rw [mem_sortDesc]
    simp
  · rfl
  · show (0 : Nat) < 6
    decide

theorem c8_roundtrip_amended_witness :
    ∃ rc ∈ retrieve_context
        (store_context emptyMemory "neural nets" "neural nets for vision"
          "u1").2 "neural nets" "u1" 5,
      rc.context_id =
        (store_context emptyMemory "neural nets" "neural nets for vision"
          "u1").1 ∧
      0 < rc.relevance_score :=
  c8_roundtrip_amended emptyMemory (by decide)

/-- C9: concept frequency is global, not per-owner — starting from a
graph with no "experiment" concept node, two `store_context` calls by
different owners whose extracted concepts both contain "experiment"
leave the "experiment" concept node with frequency exactly 2. -/
theorem c9_concept_frequency_global (m : MemoryService)
    (q1 c1 u1 q2 c2 u2 : String)
    (h0 : dictGet "experiment" m.concepts = none)
    (h1 : "experiment" ∈ extract_concepts q1 c1)
    (h2 : "experiment" ∈ extract_concepts q2 c2)
    (hu : u1 ≠ u2) :
    dictGet "experiment"
        (store_context (store_context m q1 c1 u1).2 q2 c2 u2).2.concepts =
      some ⟨"experiment", 2⟩ := by
  have l1 := store_context_concept_lookup m q1 c1 u1 "experiment" h1
  rw [h0] at l1
  have l2 := store_context_concept_lookup (store_context m q1 c1 u1).2
    q2 c2 u2 "experiment" h2
  rw [l1] at l2
  simpa using l2

theorem c9_concept_frequency_global_witness :
    dictGet "experiment"
        (store_context
          (store_context emptyMemory "experiment alpha" "" "alice").2
          "experiment beta" "" "bob").2.concepts =
      some ⟨"experiment", 2⟩ :=
  c9_concept_frequency_global emptyMemory "experiment alpha" "" "alice"
    "experiment beta" "" "bob" rfl (by decide) (by decide) (by decide)

end Ariadne
